import Mathlib

/-!
Shallow embedding of src/app.py (u25-progressive-passing-analyzer).

Modelling conventions:
* A pandas cell is `Cell`: `na` (NaN / missing), `str` (object dtype), or
  `num` (a numeric value).  Numeric values are modelled as `Rat`; the
  comparisons the program performs on finite float64 values coincide with
  the corresponding rational comparisons, and NaN is represented by `na`.
* A `Table` is a pandas DataFrame: a list of column names plus a list of
  rows (each row a list of cells, positionally aligned with the columns).
* `pd.to_numeric(..., errors := coerce)` is modelled cell-wise by
  `toNumericCell`, with a plain decimal-numeral parser (`parseRat`); none
  of the verified properties depends on exotic numeral forms.
* `df.sort_values(by, ascending=False)` in pandas reverses the rows, takes
  a stable ascending argsort of the reversed rows, and reverses the
  resulting indexer; when the underlying numpy kind behaves stably this is
  exactly a stable descending sort (ties in original order), which is how
  `sortValuesDesc` models it via `List.mergeSort`.  numpy's default
  quicksort is only guaranteed to behave stably below its insertion-sort
  cutoff; every property proved below about the sorted output is
  independent of the tie order (it only uses that the output is a sorted
  permutation of the input rows), with the sole exception of the
  stability statement itself, which is therefore left unresolved.
* Boolean masks such as `df[mask]` are modelled by `List.filter`; pandas
  comparisons against NaN yield `False`, which the cell predicates mirror.
-/

inductive Cell where
  | na : Cell
  | str : String → Cell
  | num : Rat → Cell
deriving DecidableEq, Repr

structure Table where
  cols : List String
  rows : List (List Cell)
deriving DecidableEq, Repr

def emptyTable : Table := ⟨[], []⟩

/-- Model of `df.empty` (true when either axis has length 0). -/
def Table.isEmpty (t : Table) : Bool := t.rows.isEmpty || t.cols.isEmpty

def colIdx (cols : List String) (c : String) : Option Nat :=
  cols.findIdx? (fun x => x == c)

/-- Reading column `c` of a row: positional lookup of the first column
named `c`, `na` when the column is absent or the row is too short. -/
def getCell (cols : List String) (c : String) (r : List Cell) : Cell :=
  match colIdx cols c with
  | some i => r.getD i Cell.na
  | none => Cell.na

/-- Model of the column assignment `df[c] = f(rows)` (pandas replaces the
values of an existing column `c`, or appends a new column). -/
def assignColumn (t : Table) (c : String) (f : List Cell → Cell) : Table :=
  match colIdx t.cols c with
  | some i => ⟨t.cols, t.rows.map (fun r => r.set i (f r))⟩
  | none => ⟨t.cols ++ [c], t.rows.map (fun r => r ++ [f r])⟩

/-- Row-positional values `1, 2, ...` written into column position `i?`
(`none` appends at the end of each row), modelling `df[c] = range(1, n+1)`. -/
def rangeRows (i? : Option Nat) (k : Nat) : List (List Cell) → List (List Cell)
  | [] => []
  | r :: rs =>
    (match i? with
     | some i => r.set i (Cell.num k)
     | none => r ++ [Cell.num k]) :: rangeRows i? (k + 1) rs

/-- Model of `df[c] = range(1, len(df) + 1)`. -/
def assignRange (t : Table) (c : String) : Table :=
  match colIdx t.cols c with
  | some i => ⟨t.cols, rangeRows (some i) 1 t.rows⟩
  | none => ⟨t.cols ++ [c], rangeRows none 1 t.rows⟩

def getColVals (t : Table) (c : String) : List Cell :=
  t.rows.map (fun r => getCell t.cols c r)

/-- Every row has exactly one cell per column (pandas DataFrames are
rectangular by construction). -/
def RectTable (t : Table) : Prop := ∀ r ∈ t.rows, r.length = t.cols.length

/-- Plain decimal numeral digits to a natural number. -/
def digitsVal (cs : List Char) : Nat :=
  cs.foldl (fun n c => 10 * n + (c.toNat - 48)) 0

/-- Whitespace stripped from both ends of a character list (model of
Python `str.strip()`); the standard library string functions are avoided
throughout in favour of character-list recursions with the same
semantics, so that concrete witnesses evaluate. -/
def trimChars (cs : List Char) : List Char :=
  ((cs.dropWhile Char.isWhitespace).reverse.dropWhile Char.isWhitespace).reverse

/-- Model of Python `str.strip()`. -/
def strTrim (s : String) : String := String.mk (trimChars s.toList)

def splitCharAux (sep : Char) : List Char → List Char → List (List Char)
  | [], acc => [acc.reverse]
  | c :: rest, acc =>
    if c == sep then acc.reverse :: splitCharAux sep rest []
    else splitCharAux sep rest (c :: acc)

/-- Split on a single separator character (model of Python
`str.split(sep)` and of the single-character uses of `splitOn`). -/
def strSplitChar (s : String) (sep : Char) : List String :=
  (splitCharAux sep s.toList []).map String.mk

/-- ASCII lowercasing (model of `str.lower()` on the ASCII column names
the scan is applied to). -/
def strToLower (s : String) : String := String.mk (s.toList.map Char.toLower)

/-- Model of Python `str.startswith(pre)`. -/
def strStarts (s pre : String) : Bool :=
  pre.toList.isPrefixOf s.toList

/-- Parser for plain decimal numerals (optional sign, optional fractional
part), modelling the numeral forms `pd.to_numeric` accepts on this data. -/
def parseRat (s : String) : Option Rat :=
  let cs := trimChars s.toList
  let (neg, ds) :=
    match cs with
    | '-' :: rest => (true, rest)
    | '+' :: rest => (false, rest)
    | _ => (false, cs)
  let signed : Rat → Rat := fun q => if neg then -q else q
  match splitCharAux '.' ds [] with
  | [a] =>
    if a ≠ [] && a.all Char.isDigit then
      some (signed (digitsVal a))
    else none
  | [a, b] =>
    if (a ≠ [] || b ≠ []) && a.all Char.isDigit && b.all Char.isDigit then
      some (signed ((digitsVal (a ++ b) : Rat) / ((10 : Rat) ^ b.length)))
    else none
  | _ => none

/-- Cell-wise model of `pd.to_numeric(col, errors="coerce")`. -/
def toNumericCell : Cell → Cell
  | Cell.na => Cell.na
  | Cell.num q => Cell.num q
  | Cell.str s =>
    match parseRat s with
    | some q => Cell.num q
    | none => Cell.na

/-- Model of `series <= q` for a scalar: NaN compares false. -/
def cellLeQ (c : Cell) (q : Rat) : Bool :=
  match c with
  | Cell.num v => v ≤ q
  | _ => false

/-- Model of `series >= q` for a scalar: NaN compares false. -/
def cellGeQ (c : Cell) (q : Rat) : Bool :=
  match c with
  | Cell.num v => q ≤ v
  | _ => false

/-- Model of `series > 0`: NaN compares false. -/
def cellGtZero (c : Cell) : Bool :=
  match c with
  | Cell.num v => 0 < v
  | _ => false

/-- Model of `series.notna()`. -/
def cellNotna (c : Cell) : Bool :=
  match c with
  | Cell.na => false
  | _ => true

/-- Model of `series != s` for a string scalar: NaN and non-strings
compare unequal (pandas yields True there). -/
def cellNeStr (c : Cell) (s : String) : Bool :=
  match c with
  | Cell.str x => x ≠ s
  | _ => true

/-- Model of `series.str.startswith("MF", na=False)`: non-string cells
(including NaN) yield False. -/
def cellStartsMF (c : Cell) : Bool :=
  match c with
  | Cell.str s => strStarts s "MF"
  | _ => false

/-- The boolean mask of `filter_and_analyze` (src/app.py lines 223-229). -/
def survivesRow (cols : List String) (min90s maxAge : Rat) (r : List Cell) : Bool :=
  cellLeQ (getCell cols "Age" r) maxAge &&
  cellGeQ (getCell cols "90s" r) min90s &&
  cellStartsMF (getCell cols "Pos" r) &&
  cellNotna (getCell cols "PrgDist" r) &&
  cellGtZero (getCell cols "PrgDist" r)

/-- Descending comparison on the sort-key cells: numeric cells descend by
value, NaN sorts last (na_position="last"); the `str` case is unreachable
on the filtered data (PrgDist is non-null numeric there) and is ordered
between numbers and NaN only to keep the comparison total. -/
def descKeyLe (x y : Cell) : Bool :=
  match x, y with
  | Cell.num a, Cell.num b => b ≤ a
  | Cell.num _, _ => true
  | Cell.str _, Cell.num _ => false
  | Cell.str _, _ => true
  | Cell.na, Cell.na => true
  | Cell.na, _ => false

/-- Model of `df.sort_values("PrgDist", ascending=False)`; see the header
comment for the tie-order modelling note. -/
def sortValuesDesc (t : Table) (c : String) : Table :=
  ⟨t.cols, t.rows.mergeSort (fun a b => descKeyLe (getCell t.cols c a) (getCell t.cols c b))⟩

inductive FilterNote where
  | missingAge : FilterNote
  | missing90s : FilterNote
  | missingPos : FilterNote
  | missingPrgDist : FilterNote
  | noMatch : FilterNote
deriving DecidableEq, Repr

/-- Model of `filter_and_analyze` (src/app.py lines 199-241).  The second
component records which `st.error` / `st.warning` message, if any, was
emitted alongside the returned frame. -/
def filter_and_analyze (df : Table) (min90s maxAge : Rat) : Table × Option FilterNote :=
  if df.isEmpty then (emptyTable, none)
  else if !(df.cols.contains "Age") then (emptyTable, some FilterNote.missingAge)
  else if !(df.cols.contains "90s") then (emptyTable, some FilterNote.missing90s)
  else if !(df.cols.contains "Pos") then (emptyTable, some FilterNote.missingPos)
  else if !(df.cols.contains "PrgDist") then (emptyTable, some FilterNote.missingPrgDist)
  else
    let filtered : Table := ⟨df.cols, df.rows.filter (survivesRow df.cols min90s maxAge)⟩
    if filtered.rows.isEmpty then (emptyTable, some FilterNote.noMatch)
    else
      let sorted := sortValuesDesc filtered "PrgDist"
      (assignRange sorted "Rank", none)

/-- Model of the combination step in `main` (src/app.py lines 504-506):
concatenate the per-source results, re-sort descending by PrgDist, assign
Overall_Rank 1..N. -/
def combineRank (cols : List String) (rowss : List (List (List Cell))) : Table :=
  assignRange (sortValuesDesc ⟨cols, rowss.flatten⟩ "PrgDist") "Overall_Rank"

/-- Infix test on character lists. -/
def isInfixList (p : List Char) : List Char → Bool
  | [] => p.isEmpty
  | c :: l => p.isPrefixOf (c :: l) || isInfixList p l

/-- Substring test, modelling the Python expression `pat in s`. -/
def strContains (s pat : String) : Bool :=
  isInfixList pat.toList s.toList

/-- Teams listed in `infer_league_from_squad` for the Premier League. -/
def pl_teams : List String :=
  ["Arsenal", "Chelsea", "Liverpool", "Manchester City", "Manchester Utd",
   "Tottenham", "Newcastle Utd", "Brighton", "Aston Villa", "West Ham",
   "Crystal Palace", "Fulham", "Wolves", "Everton", "Brentford",
   "Nott\x27ham Forest", "Sheffield Utd", "Burnley", "Luton Town", "Bournemouth"]

/-- Teams listed in `infer_league_from_squad` for La Liga. -/
def laliga_teams : List String :=
  ["Real Madrid", "Barcelona", "Atlético Madrid", "Sevilla", "Real Sociedad",
   "Betis", "Villarreal", "Valencia", "Athletic Club", "Espanyol",
   "Getafe", "Osasuna", "Celta Vigo", "Mallorca", "Cádiz"]

/-- Teams listed in `infer_league_from_squad` for the Bundesliga. -/
def bundesliga_teams : List String :=
  ["Bayern Munich", "Dortmund", "RB Leipzig", "Union Berlin", "Freiburg",
   "Bayer Leverkusen", "Eintracht Frankfurt", "Wolfsburg", "Mainz 05",
   "Borussia Mönchengladbach", "Köln", "Augsburg", "Werder Bremen",
   "Schalke 04", "Hoffenheim", "VfB Stuttgart", "Hertha BSC"]

/-- Teams listed in `infer_league_from_squad` for Serie A. -/
def seria_teams : List String :=
  ["Juventus", "Inter", "AC Milan", "Napoli", "Lazio", "Roma", "Atalanta",
   "Fiorentina", "Torino", "Sassuolo", "Udinese", "Bologna", "Empoli",
   "Monza", "Lecce", "Cagliari", "Genoa", "Frosinone", "Salernitana", "Verona"]

/-- Teams listed in `infer_league_from_squad` for Ligue 1. -/
def ligue1_teams : List String :=
  ["Paris S-G", "Marseille", "Monaco", "Lille", "Rennes", "Nice", "Lyon",
   "Montpellier", "Lens", "Strasbourg", "Nantes", "Reims", "Toulouse",
   "Lorient", "Le Havre", "Metz", "Brest", "Clermont Foot"]

/-- Model of `infer_league_from_squad` (src/app.py lines 96-141); `none`
models a NaN squad (the `pd.isna` branch). -/
def infer_league_from_squad (squad_name : Option String) : String :=
  match squad_name with
  | none => "Unknown"
  | some s =>
    let squad := strTrim s
    if pl_teams.contains squad then "Premier League"
    else if laliga_teams.contains squad then "La Liga"
    else if bundesliga_teams.contains squad then "Bundesliga"
    else if seria_teams.contains squad then "Serie A"
    else if ligue1_teams.contains squad then "Ligue 1"
    else "Unknown"

/-- Lift of the classifier to a squad cell: NaN hits the `pd.isna` branch;
a numeric cell stringifies to a numeral, which no team list contains, so
it also classifies as Unknown. -/
def inferLeagueCell (c : Cell) : String :=
  match c with
  | Cell.na => "Unknown"
  | Cell.str s => infer_league_from_squad (some s)
  | Cell.num _ => "Unknown"

/-- Pandas skips blank lines when parsing; model of that filter. -/
def nonBlank (lines : List String) : List String :=
  lines.filter (fun l => l != "")

/-- One CSV data line to cells: empty fields parse as NaN, everything else
is kept as text (the model performs no dtype inference; the pipeline
coerces the numeric columns explicitly via `toNumericCell`). Quoted
fields are not modelled; the data the claims exercise contains none. -/
def parseRowCells (l : String) : List Cell :=
  (strSplitChar l ',').map (fun f => if f = "" then Cell.na else Cell.str f)

/-- Model of `pd.read_csv(..., skiprows=i)`: drop the first `i` raw lines,
take the first non-blank remaining line as the header, parse the rest. -/
def parseCSVFrom (lines : List String) (i : Nat) : Table :=
  match nonBlank (lines.drop i) with
  | [] => emptyTable
  | h :: rest => ⟨strSplitChar h ',', rest.map parseRowCells⟩

/-- Python `tok in line` for every required token. -/
def lineHasAll (toks : List String) (l : String) : Bool :=
  toks.all (fun tok => strContains l tok)

/-- Header tokens required by `load_preloaded_data` (line 27). -/
def headerTokensPre : List String := ["Player", "Age", "Pos"]

/-- Header tokens required by `process_fbref_progressive_data` (line 154). -/
def headerTokensUpload : List String := ["Player", "Age", "Pos", "90s", "PrgDist"]

/-- The fallback row test of `load_preloaded_data` (line 40): after
`astype(str)`, a NaN cell reads "nan" and never equals a token, so the
test is containment of the literal cells "Player" and "Age". -/
def rowHasPlayerAge (r : List Cell) : Bool :=
  r.contains (Cell.str "Player") && r.contains (Cell.str "Age")

/-- Column names taken from a promoted header row (`df.columns =
df.iloc[idx]`); in the fallback all cells are text or NaN by construction
of `parseRowCells`, and a NaN cell stringifies to "nan". -/
def cellHeaderName : Cell → String
  | Cell.str s => s
  | Cell.na => "nan"
  | Cell.num _ => "num"

/-- Model of the secondary recovery of `load_preloaded_data` (lines
36-47): scan the first `min(10, len(df))` parsed rows for one containing
the cells "Player" and "Age"; promote it to the header and drop every row
up to and including it; `none` when no such row exists (the code then
falls through to the next path candidate and ultimately reports failure
with an empty frame). -/
def fallbackPromote (rows : List (List Cell)) : Option Table :=
  match (rows.take 10).findIdx? rowHasPlayerAge with
  | some i => some ⟨(rows.getD i []).map cellHeaderName, rows.drop (i + 1)⟩
  | none => none

/-- Header location of `load_preloaded_data` (lines 24-47) on the raw file
text: first line containing the three tokens wins; otherwise the
secondary recovery runs.  `none` models the failure outcome (error
message plus empty frame). -/
def load_preloaded_locate (raw : String) : Option Table :=
  let lines := strSplitChar raw '\n'
  match lines.findIdx? (lineHasAll headerTokensPre) with
  | some i => some (parseCSVFrom lines i)
  | none => fallbackPromote ((nonBlank lines).map parseRowCells)

/-- Header location of `process_fbref_progressive_data` (lines 149-160):
first line containing all five tokens wins; otherwise the function
reports failure and returns an empty frame at once — there is no
secondary recovery on this path. -/
def process_fbref_locate (raw : String) : Option Table :=
  let lines := strSplitChar raw '\n'
  match lines.findIdx? (lineHasAll headerTokensUpload) with
  | some i => some (parseCSVFrom lines i)
  | none => none

/-- Modelled from the spec: the upload-path variant as the specification
describes it, with the secondary recovery also attempted when no header
line is found (spec section 4.2 step 4 and the C5 claim text).  This
definition follows the claim wording and exists only to be compared with
`process_fbref_locate`, the definition taken from the source. -/
def claimedUploadLocate (raw : String) : Option Table :=
  let lines := strSplitChar raw '\n'
  match lines.findIdx? (lineHasAll headerTokensUpload) with
  | some i => some (parseCSVFrom lines i)
  | none => fallbackPromote ((nonBlank lines).map parseRowCells)

/-- Row-dropping step of `load_preloaded_data` (lines 63-65): when a
Player column exists, drop rows equal to the header token, then drop NaN
players.  Note the source drops neither "Matches" rows nor empty-string
players here. -/
def cleanPlayersPre (t : Table) : Table :=
  if t.cols.contains "Player" then
    ⟨t.cols,
      (t.rows.filter (fun r => cellNeStr (getCell t.cols "Player" r) "Player")).filter
        (fun r => cellNotna (getCell t.cols "Player" r))⟩
  else t

/-- Row-dropping step of `process_fbref_progressive_data` (lines 172-174):
drop NaN players, then header-token rows, then "Matches" rows. -/
def cleanPlayersUpload (t : Table) : Table :=
  ⟨t.cols,
    (((t.rows.filter (fun r => cellNotna (getCell t.cols "Player" r))).filter
        (fun r => cellNeStr (getCell t.cols "Player" r) "Player")).filter
      (fun r => cellNeStr (getCell t.cols "Player" r) "Matches"))⟩

/-- Model of the per-column loop `df[col] = pd.to_numeric(df[col],
errors="coerce")` guarded by column presence. -/
def coerceNumericCol (t : Table) (c : String) : Table :=
  if t.cols.contains c then
    assignColumn t c (fun r => toNumericCell (getCell t.cols c r))
  else t

/-- The column name scan of line 74: name contains "prg" or "prog"
case-insensitively. -/
def prgNameMatch (c : String) : Bool :=
  strContains (strToLower c) "prg" || strContains (strToLower c) "prog"

def prgCandidates (cols : List String) : List String :=
  cols.filter prgNameMatch

/-- Progressive-distance resolution of `load_preloaded_data` (lines
73-80): coerce the first candidate column to numeric into `PrgDist`;
`none` models the error branch (message plus empty frame). -/
def resolvePrgDist (t : Table) : Option Table :=
  match prgCandidates t.cols with
  | [] => none
  | c :: _ => some (assignColumn t "PrgDist" (fun r => toNumericCell (getCell t.cols c r)))

/-- League derivation of `load_preloaded_data` (lines 83-88). -/
def deriveLeague (t : Table) : Table :=
  if t.cols.contains "Comp" then
    assignColumn t "League" (fun r => getCell t.cols "Comp" r)
  else if t.cols.contains "Squad" then
    assignColumn t "League" (fun r => Cell.str (inferLeagueCell (getCell t.cols "Squad" r)))
  else
    assignColumn t "League" (fun _ => Cell.str "Unknown")

/-- The cleaned and numerically coerced table, just before the
progressive-distance resolution (lines 63-71). -/
def midTable (t : Table) : Table :=
  coerceNumericCol (coerceNumericCol (cleanPlayersPre t) "Age") "90s"

/-- Post-parse normalization pipeline of `load_preloaded_data` (lines
61-90): row cleaning, numeric coercion, progressive-distance resolution,
league derivation; `none` models the missing-column error return. -/
def normalizePreloaded (t : Table) : Option Table :=
  match resolvePrgDist (midTable t) with
  | none => none
  | some t3 => some (deriveLeague t3)

/-- Heap of frames for the frame-effect claim: Python references are
indices into the store, `pd.DataFrame()` and mask indexing allocate. -/
abbrev Store := List Table

def storeGet (s : Store) (r : Nat) : Table := s.getD r emptyTable

def alloc (s : Store) (t : Table) : Store × Nat := (s ++ [t], s.length)

/-- Store-level model of `filter_and_analyze`, faithful to its object
effects: `df[mask]` allocates a frame, `.copy()` allocates another,
`sort_values` allocates, `pd.DataFrame()` allocates, and the single
in-place effect `filtered_df["Rank"] = range(...)` updates the copy in
the store; the result is the reference handed back. -/
def filter_and_analyze_store (s : Store) (dfRef : Nat) (min90s maxAge : Rat) : Store × Nat :=
  let df := storeGet s dfRef
  if df.isEmpty then alloc s emptyTable
  else if !(df.cols.contains "Age") then alloc s emptyTable
  else if !(df.cols.contains "90s") then alloc s emptyTable
  else if !(df.cols.contains "Pos") then alloc s emptyTable
  else if !(df.cols.contains "PrgDist") then alloc s emptyTable
  else
    let p1 := alloc s ⟨df.cols, df.rows.filter (survivesRow df.cols min90s maxAge)⟩
    let p2 := alloc p1.1 (storeGet p1.1 p1.2)
    if (storeGet p2.1 p2.2).rows.isEmpty then alloc p2.1 emptyTable
    else
      let p3 := alloc p2.1 (sortValuesDesc (storeGet p2.1 p2.2) "PrgDist")
      let s4 := p3.1.set p3.2 (assignRange (storeGet p3.1 p3.2) "Rank")
      (s4, p3.2)

/-- A cell that real pandas can compare numerically: numeric or NaN (a
text cell in a numeric comparison raises in pandas, so the claims about
the filter are stated on tables whose numeric columns avoid it). -/
def numLike (c : Cell) : Bool :=
  match c with
  | Cell.str _ => false
  | _ => true

def ColNumLike (t : Table) (c : String) : Prop :=
  ∀ r ∈ t.rows, numLike (getCell t.cols c r) = true

instance (t : Table) (c : String) : Decidable (ColNumLike t c) :=
  inferInstanceAs (Decidable (∀ r ∈ t.rows, _ = true))

instance (t : Table) : Decidable (RectTable t) :=
  inferInstanceAs (Decidable (∀ r ∈ t.rows, r.length = t.cols.length))

/-- Example row (scenario A of the spec): a 22-year-old midfielder. -/
def exRowA : List Cell :=
  [Cell.str "1", Cell.str "A.Test", Cell.num 22, Cell.str "MF", Cell.str "Arsenal",
   Cell.num 15, Cell.num 450]

/-- Example row (scenario A of the spec): a 30-year-old midfielder. -/
def exRowB : List Cell :=
  [Cell.str "2", Cell.str "B.Old", Cell.num 30, Cell.str "MF", Cell.str "Chelsea",
   Cell.num 20, Cell.num 500]

/-- Example frame used by the concrete witnesses. -/
def exDf : Table :=
  ⟨["Rk", "Player", "Age", "Pos", "Squad", "90s", "PrgDist"], [exRowA, exRowB]⟩

/-! ### Helper lemmas -/

theorem contains_iff_mem (l : List String) (c : String) :
    l.contains c = true ↔ c ∈ l := by
  simp [List.contains]

theorem colIdx_eq_none_iff (cols : List String) (c : String) :
    colIdx cols c = none ↔ c ∉ cols := by
  simp only [colIdx, List.findIdx?_eq_none_iff, beq_eq_false_iff_ne]
  constructor
  · intro h hc
    exact h c hc rfl
  · intro h x hx hxc
    exact h (hxc ▸ hx)

theorem cellLeQ_iff (c : Cell) (q : Rat) :
    cellLeQ c q = true ↔ ∃ v, c = Cell.num v ∧ v ≤ q := by
  cases c <;> simp [cellLeQ]

theorem cellGeQ_iff (c : Cell) (q : Rat) :
    cellGeQ c q = true ↔ ∃ v, c = Cell.num v ∧ q ≤ v := by
  cases c <;> simp [cellGeQ]

theorem cellStartsMF_iff (c : Cell) :
    cellStartsMF c = true ↔ ∃ s, c = Cell.str s ∧ strStarts s "MF" = true := by
  cases c <;> simp [cellStartsMF]

theorem cellNotna_gtZero_iff (c : Cell) :
    (cellNotna c && cellGtZero c) = true ↔ ∃ v, c = Cell.num v ∧ 0 < v := by
  cases c <;> simp [cellNotna, cellGtZero]

/-- The mask of lines 223-229, written as the claim states it. -/
theorem survivesRow_iff (cols : List String) (min90s maxAge : Rat) (r : List Cell) :
    survivesRow cols min90s maxAge r = true ↔
      ((∃ v, getCell cols "Age" r = Cell.num v ∧ v ≤ maxAge) ∧
       (∃ v, getCell cols "90s" r = Cell.num v ∧ min90s ≤ v) ∧
       (∃ s, getCell cols "Pos" r = Cell.str s ∧ strStarts s "MF" = true) ∧
       (∃ v, getCell cols "PrgDist" r = Cell.num v ∧ 0 < v)) := by
  rw [← cellLeQ_iff, ← cellGeQ_iff, ← cellStartsMF_iff, ← cellNotna_gtZero_iff]
  simp [survivesRow, Bool.and_assoc]

theorem survivesRow_mono (cols : List String) (min90s a a' : Rat) (h : a' ≤ a)
    (r : List Cell) (hs : survivesRow cols min90s a' r = true) :
    survivesRow cols min90s a r = true := by
  rw [survivesRow_iff] at hs ⊢
  obtain ⟨⟨v, hv, hva⟩, rest⟩ := hs
  exact ⟨⟨v, hv, le_trans hva h⟩, rest⟩

theorem rangeRows_length (i? : Option Nat) (k : Nat) (rows : List (List Cell)) :
    (rangeRows i? k rows).length = rows.length := by
  induction rows generalizing k with
  | nil => rfl
  | cons r rs ih => simp [rangeRows, ih]

theorem mem_rangeRows_none_of_mem (rows : List (List Cell)) :
    ∀ r : List Cell, r ∈ rows → ∀ k : Nat,
      ∃ n : Nat, (r ++ [Cell.num n]) ∈ rangeRows none k rows := by
  induction rows with
  | nil => intro r h; cases h
  | cons hd tl ih =>
    intro r h k
    rcases List.mem_cons.mp h with rfl | htl
    · exact ⟨k, List.mem_cons_self _ _⟩
    · obtain ⟨n, hn⟩ := ih r htl (k + 1)
      exact ⟨n, List.mem_cons_of_mem _ hn⟩

theorem exists_of_mem_rangeRows_none (rows : List (List Cell)) :
    ∀ (k : Nat) (x : List Cell), x ∈ rangeRows none k rows →
      ∃ r ∈ rows, ∃ n : Nat, x = r ++ [Cell.num n] := by
  induction rows with
  | nil => intro k x h; cases h
  | cons hd tl ih =>
    intro k x h
    rcases List.mem_cons.mp h with rfl | htl
    · exact ⟨hd, List.mem_cons_self _ _, k, rfl⟩
    · obtain ⟨r, hr, n, hn⟩ := ih (k + 1) x htl
      exact ⟨r, List.mem_cons_of_mem _ hr, n, hn⟩

theorem getD_rangeRows_none (rows : List (List Cell)) (L : Nat)
    (h : ∀ r ∈ rows, r.length = L) :
    ∀ k : Nat,
      (rangeRows none k rows).map (fun r => r.getD L Cell.na) =
        (List.range rows.length).map (fun (i : Nat) => Cell.num ((k : Rat) + (i : Rat))) := by
  induction rows with
  | nil => intro k; rfl
  | cons hd tl ih =>
    intro k
    have hlen : hd.length = L := h hd (List.mem_cons_self _ _)
    have htl : ∀ r ∈ tl, r.length = L := fun r hr => h r (List.mem_cons_of_mem _ hr)
    have hhd : (hd ++ [Cell.num (k : Rat)]).getD L Cell.na = Cell.num (k : Rat) := by
      rw [List.getD_eq_getElem?_getD, ← hlen, List.getElem?_concat_length, Option.getD_some]
    simp only [rangeRows, List.map_cons, List.length_cons, List.range_succ_eq_map,
      List.map_map, ih htl (k + 1)]
    congr 1
    · rw [hhd]
      norm_num
    · apply List.map_congr_left
      intro i _
      simp only [Function.comp_apply, Nat.succ_eq_add_one, Cell.num.injEq]
      push_cast
      ring

theorem assignRange_fresh_rows (cols : List String) (rows : List (List Cell))
    (c : String) (hc : c ∉ cols) :
    (assignRange ⟨cols, rows⟩ c).rows = rangeRows none 1 rows := by
  have h : colIdx cols c = none := (colIdx_eq_none_iff _ _).mpr hc
  simp [assignRange, h]

theorem assignRange_fresh_cols (cols : List String) (rows : List (List Cell))
    (c : String) (hc : c ∉ cols) :
    (assignRange ⟨cols, rows⟩ c).cols = cols ++ [c] := by
  have h : colIdx cols c = none := (colIdx_eq_none_iff _ _).mpr hc
  simp [assignRange, h]

theorem mem_output_inv (df : Table) (min90s maxAge : Rat) (row : List Cell) (k : Nat)
    (hRank : "Rank" ∉ df.cols)
    (h : row ++ [Cell.num k] ∈ (filter_and_analyze df min90s maxAge).1.rows) :
    row ∈ df.rows ∧ survivesRow df.cols min90s maxAge row = true ∧
      "Age" ∈ df.cols ∧ "90s" ∈ df.cols ∧ "Pos" ∈ df.cols ∧ "PrgDist" ∈ df.cols := by
  by_cases hE : df.isEmpty = true
  · simp [filter_and_analyze, hE, emptyTable] at h
  rw [Bool.not_eq_true] at hE
  by_cases hA : "Age" ∈ df.cols
  case neg => simp [filter_and_analyze, hE, hA, emptyTable] at h
  by_cases h9 : "90s" ∈ df.cols
  case neg => simp [filter_and_analyze, hE, hA, h9, emptyTable] at h
  by_cases hP : "Pos" ∈ df.cols
  case neg => simp [filter_and_analyze, hE, hA, h9, hP, emptyTable] at h
  by_cases hD : "PrgDist" ∈ df.cols
  case neg => simp [filter_and_analyze, hE, hA, h9, hP, hD, emptyTable] at h
  simp [filter_and_analyze, hE, hA, h9, hP, hD, sortValuesDesc] at h
  split at h
  · simp [emptyTable] at h
  · replace h : row ++ [Cell.num (k : Rat)] ∈
        rangeRows none 1
          ((df.rows.filter (survivesRow df.cols min90s maxAge)).mergeSort
            (fun a b => descKeyLe (getCell df.cols "PrgDist" a) (getCell df.cols "PrgDist" b))) := by
      simpa [assignRange_fresh_rows _ _ _ hRank] using h
    obtain ⟨r, hr, n, hn⟩ := exists_of_mem_rangeRows_none _ 1 _ h
    obtain ⟨hre, -⟩ := List.append_inj' hn rfl
    subst hre
    have hrf := List.mem_filter.mp (List.mem_mergeSort.mp hr)
    exact ⟨hrf.1, hrf.2, hA, h9, hP, hD⟩

theorem mem_output_of (df : Table) (min90s maxAge : Rat) (row : List Cell)
    (hrow : row ∈ df.rows) (hs : survivesRow df.cols min90s maxAge row = true)
    (hA : "Age" ∈ df.cols) (h9 : "90s" ∈ df.cols) (hP : "Pos" ∈ df.cols)
    (hD : "PrgDist" ∈ df.cols) (hRank : "Rank" ∉ df.cols) :
    ∃ k : Nat, row ++ [Cell.num k] ∈ (filter_and_analyze df min90s maxAge).1.rows := by
  have hE : df.isEmpty = false := by
    simp only [Table.isEmpty, Bool.or_eq_false_iff, List.isEmpty_eq_false]
    exact ⟨List.ne_nil_of_mem hrow, List.ne_nil_of_mem hA⟩
  have hmem : row ∈ df.rows.filter (survivesRow df.cols min90s maxAge) :=
    List.mem_filter.mpr ⟨hrow, hs⟩
  have hF : ¬∀ r ∈ df.rows, survivesRow df.cols min90s maxAge r = false := by
    intro hall
    simp [hall row hrow] at hs
  obtain ⟨n, hn⟩ := mem_rangeRows_none_of_mem
    ((df.rows.filter (survivesRow df.cols min90s maxAge)).mergeSort
      (fun a b => descKeyLe (getCell df.cols "PrgDist" a) (getCell df.cols "PrgDist" b)))
    row (List.mem_mergeSort.mpr hmem) 1
  refine ⟨n, ?_⟩
  simp [filter_and_analyze, hE, hA, h9, hP, hD, sortValuesDesc]
  rw [if_neg hF]
  simpa [assignRange_fresh_rows _ _ _ hRank] using hn

/-! ### Claim theorems -/

/-- C1: for every input table with the Age, 90s, Pos and PrgDist columns
(and numeric-or-null values in the numeric columns, the shape the
normalizer produces and the only one on which pandas does not raise; a
fresh Rank column name keeps the appended rank identifiable), a row
appears in the output of filter_and_analyze — extended with its rank cell
— if and only if its age is non-null and at most maxAge, its 90s count is
non-null and at least minNineties, its position is a string starting with
"MF" (null positions and compound ones such as "DF,MF" fail this), and
its progressive distance is non-null and strictly positive. -/
theorem claim1_filter_predicate (df : Table) (min90s maxAge : Rat)
    (hA : "Age" ∈ df.cols) (h9 : "90s" ∈ df.cols) (hP : "Pos" ∈ df.cols)
    (hD : "PrgDist" ∈ df.cols) (hRank : "Rank" ∉ df.cols)
    (hnA : ColNumLike df "Age") (hn9 : ColNumLike df "90s") (hnD : ColNumLike df "PrgDist")
    (row : List Cell) (hrow : row ∈ df.rows) :
    (∃ k : Nat, row ++ [Cell.num k] ∈ (filter_and_analyze df min90s maxAge).1.rows) ↔
      ((∃ v, getCell df.cols "Age" row = Cell.num v ∧ v ≤ maxAge) ∧
       (∃ v, getCell df.cols "90s" row = Cell.num v ∧ min90s ≤ v) ∧
       (∃ s, getCell df.cols "Pos" row = Cell.str s ∧ strStarts s "MF" = true) ∧
       (∃ v, getCell df.cols "PrgDist" row = Cell.num v ∧ 0 < v)) := by
  rw [← survivesRow_iff]
  constructor
  · rintro ⟨k, hk⟩
    exact (mem_output_inv df min90s maxAge row k hRank hk).2.1
  · intro hs
    exact mem_output_of df min90s maxAge row hrow hs hA h9 hP hD hRank

/-- Witness for C1 at the scenario-A frame and its first row. -/
theorem claim1_witness :
    (∃ k : Nat, exRowA ++ [Cell.num k] ∈ (filter_and_analyze exDf 13 25).1.rows) ↔
      ((∃ v, getCell exDf.cols "Age" exRowA = Cell.num v ∧ v ≤ 25) ∧
       (∃ v, getCell exDf.cols "90s" exRowA = Cell.num v ∧ 13 ≤ v) ∧
       (∃ s, getCell exDf.cols "Pos" exRowA = Cell.str s ∧ strStarts s "MF" = true) ∧
       (∃ v, getCell exDf.cols "PrgDist" exRowA = Cell.num v ∧ 0 < v)) :=
  claim1_filter_predicate exDf 13 25 (by decide) (by decide) (by decide) (by decide)
    (by decide) (by decide) (by decide) (by decide) exRowA (by decide)

/-- C7: tightening the age bound only shrinks the result, as a set of
records: any record appearing (with some rank) in the output at the
smaller age bound also appears (with some rank) in the output at the
larger one; minNineties is held fixed. -/
theorem claim7_age_monotonicity (df : Table) (min90s maxAge maxAge2 : Rat)
    (hlt : maxAge2 < maxAge) (hRank : "Rank" ∉ df.cols) (row : List Cell) :
    (∃ k : Nat, row ++ [Cell.num k] ∈ (filter_and_analyze df min90s maxAge2).1.rows) →
    ∃ k : Nat, row ++ [Cell.num k] ∈ (filter_and_analyze df min90s maxAge).1.rows := by
  rintro ⟨k, hk⟩
  obtain ⟨hrow, hs, hA, h9, hP, hD⟩ := mem_output_inv df min90s maxAge2 row k hRank hk
  exact mem_output_of df min90s maxAge row hrow
    (survivesRow_mono df.cols min90s maxAge maxAge2 (le_of_lt hlt) row hs) hA h9 hP hD hRank

/-- Witness for C7: the qualifying row of the scenario-A frame at age
bound 24 still appears at age bound 25. -/
theorem claim7_witness :
    ∃ k : Nat, exRowA ++ [Cell.num k] ∈ (filter_and_analyze exDf 13 25).1.rows :=
  claim7_age_monotonicity exDf 13 25 24 (by norm_num) (by decide) exRowA
    (mem_output_of exDf 13 24 exRowA (by decide) (by decide) (by decide) (by decide)
      (by decide) (by decide) (by decide))

/-- C9: an empty input frame short-circuits: the result is the empty
frame with no error note of any kind — in particular no
missing-required-column failure, even when every required column is
absent, because the emptiness check precedes the column checks. -/
theorem claim9_empty_short_circuit (df : Table) (min90s maxAge : Rat)
    (h : df.isEmpty = true) :
    filter_and_analyze df min90s maxAge = (emptyTable, none) := by
  simp [filter_and_analyze, h]

/-- Witness for C9: a zero-row frame lacking all four required columns
yields the empty, non-error result. -/
theorem claim9_witness :
    filter_and_analyze ⟨["Foo"], []⟩ 13 25 = (emptyTable, none) :=
  claim9_empty_short_circuit ⟨["Foo"], []⟩ 13 25 (by decide)

theorem contains_eq_false_iff (l : List String) (c : String) :
    l.contains c = false ↔ c ∉ l := by
  simp [List.contains]

/-- C8: the league classifier is a pure lookup: a NaN squad gives
Unknown; otherwise the input is trimmed and looked up by exact match in
five pairwise-disjoint static team sets, each returning its league name,
with Unknown (in particular for the empty string) when no set contains
the trimmed name. -/
theorem claim8_league_classifier :
    (infer_league_from_squad none = "Unknown") ∧
    (infer_league_from_squad (some "") = "Unknown") ∧
    (List.Pairwise (fun a b => ∀ x ∈ a, x ∉ b)
      [pl_teams, laliga_teams, bundesliga_teams, seria_teams, ligue1_teams]) ∧
    (∀ s : String, strTrim s ∈ pl_teams →
      infer_league_from_squad (some s) = "Premier League") ∧
    (∀ s : String, strTrim s ∈ laliga_teams →
      infer_league_from_squad (some s) = "La Liga") ∧
    (∀ s : String, strTrim s ∈ bundesliga_teams →
      infer_league_from_squad (some s) = "Bundesliga") ∧
    (∀ s : String, strTrim s ∈ seria_teams →
      infer_league_from_squad (some s) = "Serie A") ∧
    (∀ s : String, strTrim s ∈ ligue1_teams →
      infer_league_from_squad (some s) = "Ligue 1") ∧
    (∀ s : String, strTrim s ∉ pl_teams → strTrim s ∉ laliga_teams →
      strTrim s ∉ bundesliga_teams → strTrim s ∉ seria_teams →
      strTrim s ∉ ligue1_teams → infer_league_from_squad (some s) = "Unknown") := by
  have d12 : ∀ x ∈ pl_teams, x ∉ laliga_teams := by decide
  have d13 : ∀ x ∈ pl_teams, x ∉ bundesliga_teams := by decide
  have d14 : ∀ x ∈ pl_teams, x ∉ seria_teams := by decide
  have d15 : ∀ x ∈ pl_teams, x ∉ ligue1_teams := by decide
  have d23 : ∀ x ∈ laliga_teams, x ∉ bundesliga_teams := by decide
  have d24 : ∀ x ∈ laliga_teams, x ∉ seria_teams := by decide
  have d25 : ∀ x ∈ laliga_teams, x ∉ ligue1_teams := by decide
  have d34 : ∀ x ∈ bundesliga_teams, x ∉ seria_teams := by decide
  have d35 : ∀ x ∈ bundesliga_teams, x ∉ ligue1_teams := by decide
  have d45 : ∀ x ∈ seria_teams, x ∉ ligue1_teams := by decide
  refine ⟨by decide, by decide, by decide, ?_, ?_, ?_, ?_, ?_, ?_⟩
  · intro s h
    simp [infer_league_from_squad, h]
  · intro s h
    have n1 : strTrim s ∉ pl_teams := fun hm => d12 _ hm h
    simp [infer_league_from_squad, h, n1]
  · intro s h
    have n1 : strTrim s ∉ pl_teams := fun hm => d13 _ hm h
    have n2 : strTrim s ∉ laliga_teams := fun hm => d23 _ hm h
    simp [infer_league_from_squad, h, n1, n2]
  · intro s h
    have n1 : strTrim s ∉ pl_teams := fun hm => d14 _ hm h
    have n2 : strTrim s ∉ laliga_teams := fun hm => d24 _ hm h
    have n3 : strTrim s ∉ bundesliga_teams := fun hm => d34 _ hm h
    simp [infer_league_from_squad, h, n1, n2, n3]
  · intro s h
    have n1 : strTrim s ∉ pl_teams := fun hm => d15 _ hm h
    have n2 : strTrim s ∉ laliga_teams := fun hm => d25 _ hm h
    have n3 : strTrim s ∉ bundesliga_teams := fun hm => d35 _ hm h
    have n4 : strTrim s ∉ seria_teams := fun hm => d45 _ hm h
    simp [infer_league_from_squad, h, n1, n2, n3, n4]
  · intro s h1 h2 h3 h4 h5
    simp [infer_league_from_squad, h1, h2, h3, h4, h5]

/-- Witness for C8: a squad name with surrounding whitespace classifies by
its trimmed form. -/
theorem claim8_witness :
    infer_league_from_squad (some " Arsenal ") = "Premier League" :=
  claim8_league_classifier.2.2.2.1 " Arsenal " (by decide)

/-- C10: the store-level model of filter_and_analyze never mutates any
pre-existing frame: every reference allocated before the call — the input
frame in particular — still dereferences to the same table afterwards
(the surviving rows are copied before the sort and before the Rank column
is written). -/
theorem claim10_no_mutation (s : Store) (dfRef j : Nat) (min90s maxAge : Rat)
    (hj : j < s.length) :
    ((filter_and_analyze_store s dfRef min90s maxAge).1)[j]? = s[j]? := by
  have hget : ∀ L : List Table, (s ++ L)[j]? = s[j]? :=
    fun L => List.getElem?_append_left hj
  have hne : ∀ L : List Table, (s ++ L).length ≠ j := by
    intro L
    simp only [List.length_append]
    omega
  simp only [filter_and_analyze_store, alloc, storeGet, List.append_assoc]
  repeat' split
  all_goals dsimp only
  all_goals try exact hget _
  rw [List.getElem?_set_ne (hne _)]
  exact hget _

/-- Witness for C10: a one-frame store is untouched at its only
reference. -/
theorem claim10_witness :
    ((filter_and_analyze_store [exDf] 0 13 25).1)[0]? = ([exDf] : Store)[0]? :=
  claim10_no_mutation [exDf] 0 0 13 25 (by decide)

theorem colIdx_append_self (cols : List String) (c : String) (hc : c ∉ cols) :
    colIdx (cols ++ [c]) c = some cols.length := by
  have h : cols.findIdx? (fun x => x == c) = none := (colIdx_eq_none_iff cols c).mpr hc
  simp [colIdx, List.findIdx?_append, h]

theorem assignRange_fresh (cols : List String) (rows : List (List Cell))
    (c : String) (hc : c ∉ cols) :
    assignRange ⟨cols, rows⟩ c = ⟨cols ++ [c], rangeRows none 1 rows⟩ := by
  have h : colIdx cols c = none := (colIdx_eq_none_iff _ _).mpr hc
  simp [assignRange, h]

theorem rank_col_fresh (cols : List String) (c : String) (hc : c ∉ cols)
    (rows' : List (List Cell)) (hL : ∀ r ∈ rows', r.length = cols.length) :
    getColVals ⟨cols ++ [c], rangeRows none 1 rows'⟩ c =
      (List.range (rangeRows none 1 rows').length).map
        (fun (i : Nat) => Cell.num ((i : Rat) + 1)) := by
  have hidx : colIdx (cols ++ [c]) c = some cols.length := colIdx_append_self cols c hc
  simp only [getColVals, getCell, hidx]
  rw [rangeRows_length, getD_rangeRows_none rows' cols.length hL 1]
  apply List.map_congr_left
  intro i _
  rw [Cell.num.injEq]
  exact add_comm 1 (i : Rat)

theorem getCell_append_last (cols : List String) (c c2 : String) (hne : c ≠ c2)
    (r : List Cell) (v : Cell) (hr : r.length = cols.length) :
    getCell (cols ++ [c2]) c (r ++ [v]) = getCell cols c r := by
  cases hidx : colIdx cols c with
  | some i =>
    have hfind : cols.findIdx? (fun x => x == c) = some i := hidx
    have hi : i < cols.length := by
      obtain ⟨hlt, -, -⟩ := List.findIdx?_eq_some_iff_getElem.mp hfind
      exact hlt
    have hidx2 : colIdx (cols ++ [c2]) c = some i := by
      simp [colIdx, List.findIdx?_append, hfind]
    simp only [getCell, hidx, hidx2]
    rw [List.getD_eq_getElem?_getD, List.getD_eq_getElem?_getD,
      List.getElem?_append_left (hr ▸ hi)]
  | none =>
    have hfind : cols.findIdx? (fun x => x == c) = none := hidx
    have hidx2 : colIdx (cols ++ [c2]) c = none := by
      have h2 : (c2 == c) = false := by
        simp only [beq_eq_false_iff_ne]
        exact fun hx => hne hx.symm
      simp [colIdx, List.findIdx?_append, hfind, h2]
    simp only [getCell, hidx, hidx2]

theorem descKeyLe_trans (x y z : Cell) (h1 : descKeyLe x y = true)
    (h2 : descKeyLe y z = true) : descKeyLe x z = true := by
  cases x <;> cases y <;> cases z <;> simp_all [descKeyLe]
  exact le_trans h2 h1

theorem descKeyLe_total (x y : Cell) : (descKeyLe x y || descKeyLe y x) = true := by
  cases x <;> cases y <;> simp [descKeyLe]
  exact le_total _ _

theorem pairwise_rangeRows (cols : List String) (c c2 : String) (hne : c ≠ c2)
    (l : List (List Cell)) (hL : ∀ r ∈ l, r.length = cols.length)
    (hp : List.Pairwise
      (fun a b => descKeyLe (getCell cols c a) (getCell cols c b) = true) l) :
    ∀ k : Nat, List.Pairwise
      (fun a b => descKeyLe (getCell (cols ++ [c2]) c a)
        (getCell (cols ++ [c2]) c b) = true) (rangeRows none k l) := by
  induction l with
  | nil => intro k; exact List.Pairwise.nil
  | cons hd tl ih =>
    intro k
    obtain ⟨hhd, htl⟩ := List.pairwise_cons.mp hp
    have hLhd : hd.length = cols.length := hL hd (List.mem_cons_self _ _)
    have hLtl : ∀ r ∈ tl, r.length = cols.length :=
      fun r hr => hL r (List.mem_cons_of_mem _ hr)
    refine List.pairwise_cons.mpr ⟨?_, ih hLtl htl (k + 1)⟩
    intro y hy
    obtain ⟨r, hr, n, rfl⟩ := exists_of_mem_rangeRows_none tl (k + 1) y hy
    rw [getCell_append_last cols c c2 hne hd _ hLhd,
      getCell_append_last cols c c2 hne r _ (hLtl r hr)]
    exact hhd r hr

/-- C6: the Rank column written by filter_and_analyze on a non-degenerate
frame (fresh Rank name, rectangular rows) is exactly the dense sequence
1..N in sorted position order, with N the output size — no gaps,
duplicates or tie-sharing; and the combination step over any list of
per-source row blocks, in any order, re-sorts descending by PrgDist and
reassigns Overall_Rank as exactly 1..N over all N concatenated rows. -/
theorem claim6_dense_ranks :
    (∀ (df : Table) (min90s maxAge : Rat), "Rank" ∉ df.cols → RectTable df →
      getColVals (filter_and_analyze df min90s maxAge).1 "Rank" =
        (List.range (filter_and_analyze df min90s maxAge).1.rows.length).map
          (fun (i : Nat) => Cell.num ((i : Rat) + 1))) ∧
    (∀ (cols : List String) (rowss : List (List (List Cell))), "Overall_Rank" ∉ cols →
      (∀ rows ∈ rowss, ∀ r ∈ rows, r.length = cols.length) →
      (getColVals (combineRank cols rowss) "Overall_Rank" =
        (List.range (combineRank cols rowss).rows.length).map
          (fun (i : Nat) => Cell.num ((i : Rat) + 1))) ∧
      (combineRank cols rowss).rows.length = rowss.flatten.length ∧
      List.Pairwise (fun a b =>
        descKeyLe (getCell (combineRank cols rowss).cols "PrgDist" a)
          (getCell (combineRank cols rowss).cols "PrgDist" b) = true)
        (combineRank cols rowss).rows) := by
  constructor
  · intro df min90s maxAge hRank hRect
    by_cases hE : df.isEmpty = true
    · simp [filter_and_analyze, hE, getColVals, emptyTable]
    rw [Bool.not_eq_true] at hE
    by_cases hA : "Age" ∈ df.cols
    case neg => simp [filter_and_analyze, hE, hA, getColVals, emptyTable]
    by_cases h9 : "90s" ∈ df.cols
    case neg => simp [filter_and_analyze, hE, hA, h9, getColVals, emptyTable]
    by_cases hP : "Pos" ∈ df.cols
    case neg => simp [filter_and_analyze, hE, hA, h9, hP, getColVals, emptyTable]
    by_cases hD : "PrgDist" ∈ df.cols
    case neg => simp [filter_and_analyze, hE, hA, h9, hP, hD, getColVals, emptyTable]
    have hsorted : ∀ r ∈ (df.rows.filter (survivesRow df.cols min90s maxAge)).mergeSort
        (fun a b => descKeyLe (getCell df.cols "PrgDist" a) (getCell df.cols "PrgDist" b)),
        r.length = df.cols.length :=
      fun r hr => hRect r (List.mem_filter.mp (List.mem_mergeSort.mp hr)).1
    simp [filter_and_analyze, hE, hA, h9, hP, hD, sortValuesDesc, getColVals]
    split
    · simp [emptyTable]
    · rw [assignRange_fresh _ _ _ hRank]
      simpa [getColVals] using rank_col_fresh df.cols "Rank" hRank _ hsorted
  · intro cols rowss hOR hRect2
    have hflatL : ∀ r ∈ rowss.flatten, r.length = cols.length := by
      intro r hr
      obtain ⟨rows, hrows, hrr⟩ := List.mem_flatten.mp hr
      exact hRect2 rows hrows r hrr
    have hsortL : ∀ r ∈ (rowss.flatten).mergeSort
        (fun a b => descKeyLe (getCell cols "PrgDist" a) (getCell cols "PrgDist" b)),
        r.length = cols.length :=
      fun r hr => hflatL r (List.mem_mergeSort.mp hr)
    have heq : combineRank cols rowss =
        ⟨cols ++ ["Overall_Rank"], rangeRows none 1 ((rowss.flatten).mergeSort
          (fun a b => descKeyLe (getCell cols "PrgDist" a) (getCell cols "PrgDist" b)))⟩ := by
      rw [combineRank]
      exact assignRange_fresh _ _ _ hOR
    rw [heq]
    refine ⟨?_, ?_, ?_⟩
    · exact rank_col_fresh cols "Overall_Rank" hOR _ hsortL
    · simp [rangeRows_length]
    · have hp : List.Pairwise
          (fun a b => descKeyLe (getCell cols "PrgDist" a) (getCell cols "PrgDist" b) = true)
          ((rowss.flatten).mergeSort
            (fun a b => descKeyLe (getCell cols "PrgDist" a) (getCell cols "PrgDist" b))) :=
        @List.sorted_mergeSort _
          (fun a b => descKeyLe (getCell cols "PrgDist" a) (getCell cols "PrgDist" b))
          (fun a b c h1 h2 => descKeyLe_trans _ _ _ h1 h2)
          (fun a b => descKeyLe_total _ _) rowss.flatten
      exact pairwise_rangeRows cols "PrgDist" "Overall_Rank" (by decide) _ hsortL hp 1

/-- Witness for C6: the scenario-A frame, and a two-source combination
with one row each. -/
theorem claim6_witness :
    (getColVals (filter_and_analyze exDf 13 25).1 "Rank" =
      (List.range (filter_and_analyze exDf 13 25).1.rows.length).map
        (fun (i : Nat) => Cell.num ((i : Rat) + 1))) ∧
    (getColVals (combineRank ["PrgDist"] [[[Cell.num 450]], [[Cell.num 500]]])
        "Overall_Rank" =
      (List.range (combineRank ["PrgDist"] [[[Cell.num 450]], [[Cell.num 500]]]).rows.length).map
        (fun (i : Nat) => Cell.num ((i : Rat) + 1))) :=
  ⟨claim6_dense_ranks.1 exDf 13 25 (by decide) (by decide),
   (claim6_dense_ranks.2 ["PrgDist"] [[[Cell.num 450]], [[Cell.num 500]]]
     (by decide) (by decide)).1⟩

/-- C3 counterexample: the claim states that on both normalization paths a
row whose Player field equals "Matches" is dropped; the preloaded path
(src/app.py lines 63-65) keeps it — only the upload path filters
"Matches" rows. -/
theorem claim3_counterexample :
    (cleanPlayersPre ⟨["Player"], [[Cell.str "Matches"]]⟩).rows
      = [[Cell.str "Matches"]] := by decide

/-- C3 amended: on a table with a Player column, the preloaded path keeps
a row exactly when its Player cell is non-null and differs from the
header token "Player" (empty-string and "Matches" players are kept
there); the upload path additionally drops "Matches" rows; both paths
preserve the original order of the surviving rows. -/
theorem claim3_amended (t : Table) (hP : "Player" ∈ t.cols) :
    ((cleanPlayersPre t).rows = t.rows.filter (fun r =>
        cellNotna (getCell t.cols "Player" r) &&
        cellNeStr (getCell t.cols "Player" r) "Player")) ∧
    ((cleanPlayersUpload t).rows = t.rows.filter (fun r =>
        cellNotna (getCell t.cols "Player" r) &&
        cellNeStr (getCell t.cols "Player" r) "Player" &&
        cellNeStr (getCell t.cols "Player" r) "Matches")) ∧
    (cleanPlayersPre t).rows.Sublist t.rows ∧
    (cleanPlayersUpload t).rows.Sublist t.rows := by
  have hc : t.cols.contains "Player" = true := (contains_iff_mem _ _).mpr hP
  have h1 : (cleanPlayersPre t).rows = t.rows.filter (fun r =>
      cellNotna (getCell t.cols "Player" r) &&
      cellNeStr (getCell t.cols "Player" r) "Player") := by
    simp only [cleanPlayersPre, hc, if_true, List.filter_filter]
  have h2 : (cleanPlayersUpload t).rows = t.rows.filter (fun r =>
      cellNotna (getCell t.cols "Player" r) &&
      cellNeStr (getCell t.cols "Player" r) "Player" &&
      cellNeStr (getCell t.cols "Player" r) "Matches") := by
    simp only [cleanPlayersUpload, List.filter_filter]
    apply List.filter_congr
    intro r _
    cases cellNotna (getCell t.cols "Player" r) <;>
      cases cellNeStr (getCell t.cols "Player" r) "Player" <;>
      cases cellNeStr (getCell t.cols "Player" r) "Matches" <;> rfl
  refine ⟨h1, h2, ?_, ?_⟩
  · rw [h1]
    exact List.filter_sublist _
  · rw [h2]
    exact List.filter_sublist _

/-- Witness for the amended C3 at the scenario-A frame. -/
theorem claim3_witness :
    ((cleanPlayersPre exDf).rows = exDf.rows.filter (fun r =>
        cellNotna (getCell exDf.cols "Player" r) &&
        cellNeStr (getCell exDf.cols "Player" r) "Player")) ∧
    ((cleanPlayersUpload exDf).rows = exDf.rows.filter (fun r =>
        cellNotna (getCell exDf.cols "Player" r) &&
        cellNeStr (getCell exDf.cols "Player" r) "Player" &&
        cellNeStr (getCell exDf.cols "Player" r) "Matches")) ∧
    (cleanPlayersPre exDf).rows.Sublist exDf.rows ∧
    (cleanPlayersUpload exDf).rows.Sublist exDf.rows :=
  claim3_amended exDf (by decide)

theorem cleanPlayersPre_cols (t : Table) : (cleanPlayersPre t).cols = t.cols := by
  rw [cleanPlayersPre]
  split <;> rfl

theorem cleanPlayersPre_rect (t : Table) (h : RectTable t) : RectTable (cleanPlayersPre t) := by
  intro r hr
  rw [cleanPlayersPre_cols]
  rw [cleanPlayersPre] at hr
  split at hr
  · exact h r (List.filter_sublist _ |>.subset ((List.filter_sublist _).subset hr))
  · exact h r hr

theorem assignColumn_cols_mem (t : Table) (c : String) (f : List Cell → Cell) :
    c ∈ (assignColumn t c f).cols := by
  cases hidx : colIdx t.cols c with
  | some i =>
    obtain ⟨hlt, hp, -⟩ := List.findIdx?_eq_some_iff_getElem.mp hidx
    simp only [assignColumn, hidx]
    have : t.cols.get ⟨i, hlt⟩ = c := by simpa using hp
    exact this ▸ t.cols.get_mem _ _
  | none =>
    simp [assignColumn, hidx]

theorem assignColumn_cols_superset (t : Table) (c c2 : String) (f : List Cell → Cell)
    (h : c2 ∈ t.cols) : c2 ∈ (assignColumn t c f).cols := by
  cases hidx : colIdx t.cols c with
  | some i =>
    simpa only [assignColumn, hidx] using h
  | none =>
    simp only [assignColumn, hidx]
    exact List.mem_append_left _ h

theorem assignColumn_rect (t : Table) (c : String) (f : List Cell → Cell)
    (h : RectTable t) : RectTable (assignColumn t c f) := by
  intro r hr
  cases hidx : colIdx t.cols c with
  | some i =>
    simp only [assignColumn, hidx] at hr ⊢
    obtain ⟨r0, hr0, rfl⟩ := List.mem_map.mp hr
    simp [h r0 hr0]
  | none =>
    simp only [assignColumn, hidx] at hr ⊢
    obtain ⟨r0, hr0, rfl⟩ := List.mem_map.mp hr
    simp [h r0 hr0]

theorem coerceNumericCol_cols (t : Table) (c : String) :
    (coerceNumericCol t c).cols = t.cols := by
  rw [coerceNumericCol]
  split
  case isTrue h =>
    have hmem : c ∈ t.cols := (contains_iff_mem _ _).mp h
    cases hidx : colIdx t.cols c with
    | some i => simp [assignColumn, hidx]
    | none => exact absurd hmem ((colIdx_eq_none_iff _ _).mp hidx)
  case isFalse h => rfl

theorem coerceNumericCol_rect (t : Table) (c : String) (h : RectTable t) :
    RectTable (coerceNumericCol t c) := by
  rw [coerceNumericCol]
  split
  · exact assignColumn_rect _ _ _ h
  · exact h

theorem midTable_cols (t : Table) : (midTable t).cols = t.cols := by
  rw [midTable, coerceNumericCol_cols, coerceNumericCol_cols, cleanPlayersPre_cols]

theorem midTable_rect (t : Table) (h : RectTable t) : RectTable (midTable t) :=
  coerceNumericCol_rect _ _ (coerceNumericCol_rect _ _ (cleanPlayersPre_rect _ h))

theorem getColVals_assignColumn_self (t : Table) (c : String) (f : List Cell → Cell)
    (hrect : RectTable t) :
    getColVals (assignColumn t c f) c = t.rows.map f := by
  cases hidx : colIdx t.cols c with
  | some i =>
    obtain ⟨hlt, -, -⟩ := List.findIdx?_eq_some_iff_getElem.mp hidx
    simp only [getColVals, assignColumn, hidx, getCell, List.map_map]
    apply List.map_congr_left
    intro r hr
    have hirl : i < r.length := by rw [hrect r hr]; exact hlt
    simp [List.getElem?_set_self hirl]
  | none =>
    have hc : c ∉ t.cols := (colIdx_eq_none_iff _ _).mp hidx
    have hidx2 : colIdx (t.cols ++ [c]) c = some t.cols.length :=
      colIdx_append_self _ _ hc
    simp only [getColVals, assignColumn, hidx, getCell, hidx2, List.map_map]
    apply List.map_congr_left
    intro r hr
    simp only [Function.comp_apply, List.getD_eq_getElem?_getD, ← hrect r hr,
      List.getElem?_concat_length, Option.getD_some]

theorem getColVals_assignColumn_other (t : Table) (c c2 : String) (g : List Cell → Cell)
    (hne : c ≠ c2) (hrect : RectTable t) :
    getColVals (assignColumn t c2 g) c = getColVals t c := by
  cases hidx2 : colIdx t.cols c2 with
  | some j =>
    obtain ⟨hjlt, hpj, -⟩ := List.findIdx?_eq_some_iff_getElem.mp hidx2
    simp only [getColVals, assignColumn, hidx2, List.map_map]
    apply List.map_congr_left
    intro r hr
    simp only [Function.comp_apply, getCell]
    cases hidx : colIdx t.cols c with
    | some i =>
      obtain ⟨hilt, hpi, -⟩ := List.findIdx?_eq_some_iff_getElem.mp hidx
      have hij : j ≠ i := by
        intro hji
        subst hji
        have hci : t.cols[j] = c := by simpa using hpi
        have hcj : t.cols[j] = c2 := by simpa using hpj
        exact hne (hci.symm.trans hcj)
      simp [List.getElem?_set_ne hij]
    | none => rfl
  | none =>
    have hc2 : c2 ∉ t.cols := (colIdx_eq_none_iff _ _).mp hidx2
    simp only [getColVals, assignColumn, hidx2, List.map_map]
    apply List.map_congr_left
    intro r hr
    exact getCell_append_last t.cols c c2 hne r (g r) (hrect r hr)

theorem getColVals_deriveLeague (t : Table) (c : String) (hne : c ≠ "League")
    (hrect : RectTable t) :
    getColVals (deriveLeague t) c = getColVals t c := by
  rw [deriveLeague]
  split
  · exact getColVals_assignColumn_other t c "League" _ hne hrect
  split
  · exact getColVals_assignColumn_other t c "League" _ hne hrect
  · exact getColVals_assignColumn_other t c "League" _ hne hrect

theorem deriveLeague_cols_superset (t : Table) (c : String) (h : c ∈ t.cols) :
    c ∈ (deriveLeague t).cols := by
  rw [deriveLeague]
  split
  · exact assignColumn_cols_superset _ _ _ _ h
  split
  · exact assignColumn_cols_superset _ _ _ _ h
  · exact assignColumn_cols_superset _ _ _ _ h

theorem filter_head_of_first (l : List String) (p : String → Bool) :
    ∀ i : Nat, ∀ hi : i < l.length, p (l.get ⟨i, hi⟩) = true →
      (∀ j : Nat, (hj : j < i) → p (l.get ⟨j, Nat.lt_trans hj hi⟩) = false) →
      ∃ rest, l.filter p = l.get ⟨i, hi⟩ :: rest := by
  induction l with
  | nil => intro i hi; cases hi
  | cons hd tl ih =>
    intro i hi hp hfirst
    cases i with
    | zero =>
      refine ⟨tl.filter p, ?_⟩
      simp only [List.get] at hp
      simp [List.filter_cons, hp]
    | succ n =>
      have hhd : p hd = false := hfirst 0 (Nat.succ_pos n)
      have hn : n < tl.length := Nat.lt_of_succ_lt_succ hi
      obtain ⟨rest, hrest⟩ := ih n hn hp
        (fun j hj => hfirst (j + 1) (Nat.succ_lt_succ hj))
      refine ⟨rest, ?_⟩
      simp [List.filter_cons, hhd, hrest]

/-- C4: in the preloaded-path normalization, if no column name contains
"prg" or "prog" case-insensitively, the whole pipeline signals the
missing-column failure and returns the empty frame (no partial output);
otherwise the first matching column (in column order) is coerced
cell-wise to numeric and exposed as the PrgDist field of the returned
frame. -/
theorem claim4_missing_prgdist (t : Table) :
    ((∀ c ∈ t.cols, prgNameMatch c = false) → normalizePreloaded t = none) ∧
    (∀ i : Nat, ∀ hi : i < t.cols.length, RectTable t →
      prgNameMatch (t.cols.get ⟨i, hi⟩) = true →
      (∀ j : Nat, (hj : j < i) → prgNameMatch (t.cols.get ⟨j, Nat.lt_trans hj hi⟩) = false) →
      ∃ t2 : Table, normalizePreloaded t = some t2 ∧ "PrgDist" ∈ t2.cols ∧
        getColVals t2 "PrgDist" = (midTable t).rows.map (fun r =>
          toNumericCell (getCell t.cols (t.cols.get ⟨i, hi⟩) r))) := by
  constructor
  · intro h
    have hfil : prgCandidates (midTable t).cols = [] := by
      rw [midTable_cols]
      exact List.filter_eq_nil_iff.mpr (fun c hc => by simp [h c hc])
    simp [normalizePreloaded, resolvePrgDist, hfil]
  · intro i hi hrect hp hfirst
    have hrectmid := midTable_rect t hrect
    obtain ⟨rest, hrest⟩ := filter_head_of_first t.cols prgNameMatch i hi hp hfirst
    have hcand : prgCandidates (midTable t).cols = t.cols.get ⟨i, hi⟩ :: rest := by
      rw [midTable_cols]
      exact hrest
    refine ⟨deriveLeague (assignColumn (midTable t) "PrgDist"
      (fun r => toNumericCell (getCell (midTable t).cols (t.cols.get ⟨i, hi⟩) r))), ?_, ?_, ?_⟩
    · simp [normalizePreloaded, resolvePrgDist, hcand]
    · exact deriveLeague_cols_superset _ _ (assignColumn_cols_mem _ _ _)
    · rw [getColVals_deriveLeague _ _ (by decide) (assignColumn_rect _ _ _ hrectmid),
        getColVals_assignColumn_self _ _ _ hrectmid, midTable_cols]

/-- Witness for C4: the scenario-A frame resolves its PrgDist column
(index 6, the first matching name); a frame with no matching column name
is rejected as empty. -/
theorem claim4_witness :
    (∃ t2 : Table, normalizePreloaded exDf = some t2 ∧ "PrgDist" ∈ t2.cols ∧
      getColVals t2 "PrgDist" = (midTable exDf).rows.map (fun r =>
        toNumericCell (getCell exDf.cols (exDf.cols.get ⟨6, by decide⟩) r))) ∧
    normalizePreloaded ⟨["Player", "Age"], [[Cell.str "A", Cell.str "22"]]⟩ = none :=
  ⟨(claim4_missing_prgdist exDf).2 6 (by decide) (by decide) (by decide)
      (fun j hj => by interval_cases j <;> rfl),
   (claim4_missing_prgdist ⟨["Player", "Age"], [[Cell.str "A", Cell.str "22"]]⟩).1
      (by decide)⟩

theorem findIdx?_of_first (l : List String) (p : String → Bool) (i : Nat)
    (hi : i < l.length) (hp : p (l.get ⟨i, hi⟩) = true)
    (hfirst : ∀ j : Nat, (hj : j < i) → p (l.get ⟨j, Nat.lt_trans hj hi⟩) = false) :
    l.findIdx? p = some i :=
  List.findIdx?_eq_some_iff_getElem.mpr
    ⟨hi, by simpa using hp, fun j hj => by simpa using hfirst j hj⟩

theorem findIdx?_rows_of_first (l : List (List Cell)) (p : List Cell → Bool) (i : Nat)
    (hi : i < l.length) (hp : p (l.get ⟨i, hi⟩) = true)
    (hfirst : ∀ j : Nat, (hj : j < i) → p (l.get ⟨j, Nat.lt_trans hj hi⟩) = false) :
    l.findIdx? p = some i :=
  List.findIdx?_eq_some_iff_getElem.mpr
    ⟨hi, by simpa using hp, fun j hj => by simpa using hfirst j hj⟩

/-- C5 counterexample: the claim describes a single header-locating
parser whose secondary row-promoting recovery runs before any
header-not-found failure, in the upload variant as well; on this input no
line contains all five upload tokens but the second parsed row would be
promoted by the recovery — the source upload path (src/app.py lines
149-160) returns the failure (empty frame) at once, while the
claim-following definition recovers a table. -/
theorem claim5_counterexample :
    process_fbref_locate "junk\nPlayer,Age\nA,22" = none ∧
    claimedUploadLocate "junk\nPlayer,Age\nA,22" =
      some ⟨["Player", "Age"], [[Cell.str "A", Cell.str "22"]]⟩ :=
  ⟨by decide, by decide⟩

/-- C5 amended: the preloaded variant takes the first raw line containing
"Player", "Age" and "Pos" as the header and parses from it; when no such
line exists it attempts the secondary recovery, scanning the first ten
parsed rows for one containing the cells "Player" and "Age", promoting it
to the header and discarding everything through it, and fails otherwise.
The upload variant takes the first line containing "Player", "Age",
"Pos", "90s" and the literal "PrgDist"; when no such line exists it
signals the header-not-found failure (empty frame) immediately, without
any recovery. -/
theorem claim5_amended :
    (∀ (raw : String) (i : Nat) (hi : i < (strSplitChar raw '\n').length),
      lineHasAll headerTokensPre ((strSplitChar raw '\n').get ⟨i, hi⟩) = true →
      (∀ j : Nat, (hj : j < i) →
        lineHasAll headerTokensPre ((strSplitChar raw '\n').get ⟨j, Nat.lt_trans hj hi⟩)
          = false) →
      load_preloaded_locate raw = some (parseCSVFrom (strSplitChar raw '\n') i)) ∧
    (∀ raw : String,
      (∀ l ∈ strSplitChar raw '\n', lineHasAll headerTokensPre l = false) →
      load_preloaded_locate raw =
        fallbackPromote ((nonBlank (strSplitChar raw '\n')).map parseRowCells)) ∧
    (∀ (rows : List (List Cell)) (i : Nat) (hi : i < (rows.take 10).length),
      rowHasPlayerAge ((rows.take 10).get ⟨i, hi⟩) = true →
      (∀ j : Nat, (hj : j < i) →
        rowHasPlayerAge ((rows.take 10).get ⟨j, Nat.lt_trans hj hi⟩) = false) →
      fallbackPromote rows = some ⟨(rows.getD i []).map cellHeaderName, rows.drop (i + 1)⟩) ∧
    (∀ rows : List (List Cell),
      (∀ r ∈ rows.take 10, rowHasPlayerAge r = false) → fallbackPromote rows = none) ∧
    (∀ (raw : String) (i : Nat) (hi : i < (strSplitChar raw '\n').length),
      lineHasAll headerTokensUpload ((strSplitChar raw '\n').get ⟨i, hi⟩) = true →
      (∀ j : Nat, (hj : j < i) →
        lineHasAll headerTokensUpload ((strSplitChar raw '\n').get ⟨j, Nat.lt_trans hj hi⟩)
          = false) →
      process_fbref_locate raw = some (parseCSVFrom (strSplitChar raw '\n') i)) ∧
    (∀ raw : String,
      (∀ l ∈ strSplitChar raw '\n', lineHasAll headerTokensUpload l = false) →
      process_fbref_locate raw = none) := by
  refine ⟨?_, ?_, ?_, ?_, ?_, ?_⟩
  · intro raw i hi hp hfirst
    have h := findIdx?_of_first _ _ i hi hp hfirst
    simp [load_preloaded_locate, h]
  · intro raw h
    have h2 : (strSplitChar raw '\n').findIdx? (lineHasAll headerTokensPre) = none :=
      List.findIdx?_eq_none_iff.mpr h
    simp [load_preloaded_locate, h2]
  · intro rows i hi hp hfirst
    have h := findIdx?_rows_of_first _ _ i hi hp hfirst
    simp [fallbackPromote, h]
  · intro rows h
    have h2 : (rows.take 10).findIdx? rowHasPlayerAge = none :=
      List.findIdx?_eq_none_iff.mpr h
    simp [fallbackPromote, h2]
  · intro raw i hi hp hfirst
    have h := findIdx?_of_first _ _ i hi hp hfirst
    simp [process_fbref_locate, h]
  · intro raw h
    have h2 : (strSplitChar raw '\n').findIdx? (lineHasAll headerTokensUpload) = none :=
      List.findIdx?_eq_none_iff.mpr h
    simp [process_fbref_locate, h2]

/-- Witness for the amended C5: a preamble line followed by a header line
is parsed from the header; an upload input with no header line yields the
empty failure. -/
theorem claim5_witness :
    load_preloaded_locate "xx\nPlayer,Age,Pos\nA,20,MF" =
      some (parseCSVFrom (strSplitChar "xx\nPlayer,Age,Pos\nA,20,MF" '\n') 1) ∧
    process_fbref_locate "junk" = none :=
  ⟨claim5_amended.1 "xx\nPlayer,Age,Pos\nA,20,MF" 1 (by decide) (by decide)
      (fun j hj => by interval_cases j <;> rfl),
   claim5_amended.2.2.2.2.2 "junk" (by decide)⟩
